import Mathlib

/-!
# Verification of the SOFiSTiK CDB reader core

A shallow embedding, in Lean 4, of the record-scanning engine, the entity
decoders and the principal-stress numerics of the Sof-Rhino repository
(`sof_read.py`, `misc.py`), together with theorems settling the frozen
claims about that code.

Conventions used throughout:

* Python `dict`s become association lists (`Dict K V` below) with
  Python-`update` semantics: an existing key is overwritten in place,
  a new key is appended at the end.
* Python `float` arithmetic is idealised as exact arithmetic (`ℚ` for the
  decoders, `ℝ` for the stress numerics).
* The external vendor primitive `sof_cdb_get` is modelled as an oracle
  stream: the list of `(status, raw record)` answers it produces, one per
  call.  The `position` and `record length` arguments the loop passes to
  the primitive are observed through a trace.
* Python exceptions become an explicit `Except PyErr` result; `PyErr`
  names the concrete exception class the interpreter would raise.
-/

/-- The Python exceptions that the modelled code can raise. -/
inductive PyErr where
  | typeError
  | valueError
  | zeroDivisionError
deriving DecidableEq, Repr

deriving instance DecidableEq for Except

/-- A Python `dict`, modelled as an association list (insertion order kept). -/
abbrev Dict (K V : Type) := List (K × V)

/-- Python `d[k] = v` / `d.update({k: v})`: overwrite in place if the key is
present, otherwise append. -/
def dinsert {K V : Type} [DecidableEq K] (d : Dict K V) (k : K) (v : V) : Dict K V :=
  if d.any (fun p => p.1 = k) then
    d.map (fun p => if p.1 = k then (k, v) else p)
  else
    d ++ [(k, v)]

/-- Python `d.get(k)`. -/
def dfind? {K V : Type} [DecidableEq K] (d : Dict K V) (k : K) : Option V :=
  (d.find? (fun p => p.1 = k)).map Prod.snd

/-! ## The record scanner (`read_sof_dtype` / `single_record` in `sof_read.py`)

One call to the external primitive is an element of the oracle stream: the
status code it returns and the raw record it leaves in the shared buffer. -/

/-- One answer of the external `sof_cdb_get` primitive. -/
structure ScanCall (Rec : Type) where
  status : ℤ
  record : Rec
deriving Repr

/-- The body of the scan loop: `record_data = store_record(cdb)` followed by
`if record_data: dtype_dict.update(record_data)`.  A decoder returning `none`
("no record") leaves the accumulated dictionary unchanged. -/
def merge_step {Rec K V : Type} [DecidableEq K] (decode : Rec → Option (K × V))
    (acc : Dict K V) (c : ScanCall Rec) : Dict K V :=
  match decode c.record with
  | some (k, v) => dinsert acc k v
  | none => acc

/-- The `while error_flag.value < 2` loop of `single_record`, instrumented.

State carried between calls: the `pos` argument that the next call will
receive (the `record_len` argument is always reset to `size`, the schema's
`sizeof`, so it is a constant of the loop).  The first component of the
result is the trace of `(position, record_len)` argument pairs the external
primitive received, one per call; the second is the decoded family
dictionary, or `none` when the oracle stream is exhausted before any call
returned a status `≥ 2` (the loop in the source would then spin forever on
the real primitive). -/
def scan_loop_aux {Rec K V : Type} [DecidableEq K] (decode : Rec → Option (K × V))
    (size : ℤ) : List (ScanCall Rec) → ℤ → Dict K V → List (ℤ × ℤ) × Option (Dict K V)
  | [], _, _ => ([], none)
  | c :: rest, pos, acc =>
    let acc' := merge_step decode acc c
    if c.status < 2 then
      let r := scan_loop_aux decode size rest 1 acc'
      ((pos, size) :: r.1, r.2)
    else
      ([(pos, size)], some acc')

/-- Method `_validate_cdb_keys`: the Python function returns `True` exactly when
`sof_cdb_kexist` reports state `2`; states `0` and `1` return `False`, and
any other value falls off the end of the function (`None`, falsy). -/
def validate_cdb_keys (keyState : ℤ) : Bool :=
  keyState = 2

/-- Function `single_record`: validate the key pair, then drain the family.  On a key
state other than `2` the Python code returns early, leaving `cdb.data`
untouched (in particular it does not store an empty family dictionary).
`initPos` is `position if position != None else 1` from the decorator. -/
def single_record {Rec K V : Type} [DecidableEq K] (ident : String)
    (keyState : ℤ) (decode : Rec → Option (K × V)) (size initPos : ℤ)
    (calls : List (ScanCall Rec)) (data : Dict String (Dict K V)) :
    Option (Dict String (Dict K V)) :=
  if validate_cdb_keys keyState then
    ((scan_loop_aux decode size calls initPos []).2).map (fun d => dinsert data ident d)
  else
    some data

/-- Index of the first oracle answer with status `≥ 2` — the call at which
the `while error_flag.value < 2` loop stops. -/
def stop_index {Rec : Type} : List (ScanCall Rec) → Option ℕ
  | [] => none
  | c :: rest => if 2 ≤ c.status then some 0 else (stop_index rest).map (· + 1)

/-! ## The record-family table of `SofReader`

Each `@read_sof_dtype(...)` decorator application in the source, with its
record identifier, key pair and optional start position.  A `none` minor key
is the wildcard (`multiple_records`) mode. -/

/-- One `@read_sof_dtype` application. -/
structure FamilyDesc where
  ident : String
  majorKey : ℤ
  minorKey : Option ℤ
  position : Option ℤ
deriving DecidableEq, Repr

/-- All families registered in `sof_read.py`, in source order. -/
def sourceFamilies : List FamilyDesc :=
  [ ⟨"system", 10, some 0, none⟩,
    ⟨"nodes", 20, some 0, none⟩,
    ⟨"beams", 100, some 0, none⟩,
    ⟨"beam_sections", 100, some 0, some 1⟩,
    ⟨"trusses", 150, some 0, none⟩,
    ⟨"cables", 160, some 0, none⟩,
    ⟨"springs", 170, some 0, none⟩,
    ⟨"quads", 200, some 0, none⟩,
    ⟨"brics", 300, some 0, none⟩,
    ⟨"bric_stresses", 310, none, none⟩ ]

/-- Python expression `position if position != None else 1`: the initial value of the `pos`
counter for a family. -/
def effectivePos (f : FamilyDesc) : ℤ :=
  f.position.getD 1

/-! ## Python string replacement

`str.replace(old, new)` replaces all non-overlapping occurrences from the
left; with an empty `old` it inserts `new` before every character and once
at the end.  Lean's own `String.replace` returns the string unchanged on an
empty pattern, so the Python behaviour is modelled explicitly. -/

/-- Replace all non-overlapping occurrences of a non-empty pattern, scanning
left to right.  The first argument is recursion fuel; every step consumes at
least one character, so fuel equal to the string length is always enough and
the fuel-exhausted base case is never reached. -/
def py_replace_core (pat rep : List Char) : ℕ → List Char → List Char
  | 0, l => l
  | _ + 1, [] => []
  | fuel + 1, c :: cs =>
    if pat ≠ [] ∧ pat.isPrefixOf (c :: cs) then
      rep ++ py_replace_core pat rep fuel ((c :: cs).drop pat.length)
    else
      c :: py_replace_core pat rep fuel cs

/-- Python `s.replace(pat, rep)`. -/
def py_replace (s pat rep : String) : String :=
  if pat.data = [] then
    ⟨rep.data ++ (s.data.map (fun c => c :: rep.data)).flatten⟩
  else
    ⟨py_replace_core pat.data rep.data s.data.length s.data⟩

/-! ## Node fixity decoding (`_fix_flags` / `_decode_node_fix`) -/

/-- The `_fix_flags` table: `(bit value, token to remove, token to add)`,
from largest to smallest bit value, exactly as in the `SofReader`
constructor. -/
def fix_flags : List (ℤ × String × String) :=
  [ (1024, "", ""),
    (512, "", ""),
    (256, "", ""),
    (128, "", ""),
    (64, "", "PxPyPzMxMyMz"),
    (32, "Mz", ""),
    (16, "My", ""),
    (8, "Mx", ""),
    (4, "Pz", ""),
    (2, "Py", ""),
    (1, "Px", "") ]

/-- Method `_decode_node_fix`: walk the flag table with an accumulator string
initialised to `" "`; for each flag compute `temp_bc = bitcode - fix[0]`,
and when `temp_bc >= 0` consume the bits and apply the textual
substitution. -/
def decode_node_fix (bitcode : ℤ) : String :=
  (fix_flags.foldl
    (fun st fix =>
      let temp := st.1 - fix.1
      if 0 ≤ temp then (temp, py_replace st.2 fix.2.1 fix.2.2) else st)
    (bitcode, " ")).2

/-- The spec's wording of the fixity decode, used as the reference for the
refinement claim: test the flags in table order; for each flag whose bit
value is at most the remaining bitcode, subtract it from the remainder and
apply the flag's substitution to the accumulator; return the final
accumulator. -/
def decode_fix_spec : List (ℤ × String × String) → ℤ → String → String
  | [], _, acc => acc
  | (bit, tokRemove, tokAdd) :: rest, remaining, acc =>
    if bit ≤ remaining then
      decode_fix_spec rest (remaining - bit) (py_replace acc tokRemove tokAdd)
    else
      decode_fix_spec rest remaining acc

/-- A generic bitmask-test reading of the same flag table (what the decoder
is *not*): apply a flag's substitution exactly when the flag's bit is set in
the bitcode, without consuming bits. -/
def decode_fix_bitmask (bitcode : ℤ) : String :=
  fix_flags.foldl
    (fun acc fix =>
      if Nat.land bitcode.toNat fix.1.toNat ≠ 0 then py_replace acc fix.2.1 fix.2.2 else acc)
    " "

/-! ## Entity record types and decoders

The raw record classes (`csyst`, `cnode`, ...) come from the vendor's
`sof_data_access` module; only the fields the decoders read are modelled. -/

/-- Record class `csyst`: the System record. -/
structure CSyst where
  m_igdiv : ℤ
deriving DecidableEq, Repr

/-- Decoder `read_system`: stores `{"gdiv": csyst.m_igdiv}` unconditionally. -/
def read_system (r : CSyst) : Option (String × ℤ) :=
  some ("gdiv", r.m_igdiv)

/-- Method `_get_group`: returns `0` when `self.data.get("system")` is falsy (absent or an
empty dict); otherwise `int(elem_nr / gdiv)` — Python true division followed
by `int` truncation toward zero, which raises `ZeroDivisionError` when the
stored divisor is `0` (and `TypeError` if the `"gdiv"` key were missing,
since `None` admits no division). -/
def get_group (systemData : Option (Dict String ℤ)) (elemNr : ℤ) : Except PyErr ℤ :=
  match systemData with
  | none => .ok 0
  | some d =>
    if d = [] then .ok 0
    else
      match dfind? d "gdiv" with
      | none => .error .typeError
      | some gdiv =>
        if gdiv = 0 then .error .zeroDivisionError
        else .ok (Int.tdiv elemNr gdiv)

/-- Record class `cnode`: the Node record. -/
structure CNode where
  m_nr : ℤ
  m_xyz : ℚ × ℚ × ℚ
  m_kfix : ℤ
deriving DecidableEq, Repr

/-- Decoded Node attributes. -/
structure NodeAttr where
  xyz : List ℚ
  fix : String
deriving DecidableEq, Repr

/-- Decoder `read_nodes`: sentinel id `<= 0` yields no record. -/
def read_nodes (r : CNode) : Option (ℤ × NodeAttr) :=
  if r.m_nr ≤ 0 then none
  else some (r.m_nr, ⟨[r.m_xyz.1, r.m_xyz.2.1, r.m_xyz.2.2], decode_node_fix r.m_kfix⟩)

/-- Record class `cbeam`: the Beam record. -/
structure CBeam where
  m_nr : ℤ
  m_node : ℤ × ℤ
  m_dl : ℚ
  m_ex : List (ℚ × ℚ)
deriving DecidableEq, Repr

/-- Decoded Beam attributes. -/
structure BeamAttr where
  group : ℤ
  nodes : List ℤ
  length : ℚ
  x_start : List ℚ
  x_end : List ℚ
deriving DecidableEq, Repr

/-- Decoder `read_beams`: sentinel id `<= 0` yields no record; the `group` attribute
comes from `_get_group`, whose exception (if any) propagates. -/
def read_beams (systemData : Option (Dict String ℤ)) (r : CBeam) :
    Except PyErr (Option (ℤ × BeamAttr)) :=
  if r.m_nr ≤ 0 then .ok none
  else
    match get_group systemData r.m_nr with
    | .error e => .error e
    | .ok g =>
      .ok (some (r.m_nr,
        ⟨g, [r.m_node.1, r.m_node.2], r.m_dl, r.m_ex.map Prod.fst, r.m_ex.map Prod.snd⟩))

/-- Record class `cbric`: the Bric (volume element) record.  `m_node` is the fixed
8-slot node-id array; `m_det` is the Jacobian-determinant array, of which
only index 0 is read. -/
structure CBric where
  m_nr : ℤ
  m_node : Fin 8 → ℤ
  m_nra : ℤ
  m_mat : ℤ
  m_det : ℕ → ℚ

/-- Decoded Bric attributes. -/
structure BricAttr where
  group : ℤ
  nodes : List ℤ
  type : ℤ
  mat : ℤ
  volume : ℚ
deriving DecidableEq, Repr

/-- Decoder `read_brics`: Python `m_node[-1]`/`m_node[-2]` are slots 7 and 6; equal
slots mean a tetrahedron (`det_factor = 4 / 3`), otherwise a hexahedron
(`det_factor = 8`). -/
def read_brics (systemData : Option (Dict String ℤ)) (r : CBric) :
    Except PyErr (Option (ℤ × BricAttr)) :=
  if r.m_nr ≤ 0 then .ok none
  else
    let det_factor : ℚ := if r.m_node 7 = r.m_node 6 then 4 / 3 else 8
    match get_group systemData r.m_nr with
    | .error e => .error e
    | .ok g =>
      .ok (some (r.m_nr, ⟨g, List.ofFn r.m_node, r.m_nra, r.m_mat, r.m_det 0 * det_factor⟩))

/-- Record class `cbric_str`: the Bric stress-result record. -/
structure CBricStr where
  m_nr : ℤ
  m_sigx : ℚ
  m_sigy : ℚ
  m_sigz : ℚ
  m_tvxy : ℚ
  m_tvxz : ℚ
  m_tvyz : ℚ
deriving DecidableEq, Repr

/-- Decoded Bric stress attributes. -/
structure BricStressAttr where
  sigx : ℚ
  sigy : ℚ
  sigz : ℚ
  tauxy : ℚ
  tauxz : ℚ
  tauyz : ℚ
deriving DecidableEq, Repr

/-- Decoder `read_bric_stresses`, kept faithful to the source: the `sigz` entry is
computed from `cbric_str.m_sigy`, not from `m_sigz` (the copy-paste slip the
spec flags). -/
def read_bric_stresses (r : CBricStr) : Option (ℤ × BricStressAttr) :=
  if r.m_nr ≤ 0 then none
  else
    let scale : ℚ := 1 / 1000
    some (r.m_nr,
      { sigx := r.m_sigx * scale
        sigy := r.m_sigy * scale
        sigz := r.m_sigy * scale
        tauxy := r.m_tvxy * scale
        tauxz := r.m_tvxz * scale
        tauyz := r.m_tvyz * scale })

example : Int.tdiv 21 10 = 2 := by decide
example : Int.tdiv 21 (-10) = -2 := by decide
example : Int.fdiv 21 (-10) = -3 := by decide
example : py_replace " " "" "Ab" = "Ab Ab" := by rfl
example : decode_node_fix 7 = " " := by rfl
example : decode_node_fix 64 = "PxPyPzMxMyMz PxPyPzMxMyMz" := by rfl

/-! ## Scanner lemmas -/

/-- If some call answers with status `≥ 2` (first doing so at index `k`),
the scan loop terminates after exactly `k + 1` calls and its result is the
left fold of the merge step over those calls — every delivered record,
including the one of the final call, is decoded and merged. -/
lemma scan_loop_aux_snd_eq {Rec K V : Type} [DecidableEq K]
    (decode : Rec → Option (K × V)) (size : ℤ) :
    ∀ (calls : List (ScanCall Rec)) (k : ℕ) (pos : ℤ) (acc : Dict K V),
      stop_index calls = some k →
      (scan_loop_aux decode size calls pos acc).2
        = some ((calls.take (k + 1)).foldl (merge_step decode) acc) := by
  intro calls
  induction calls with
  | nil => intro k pos acc h; simp [stop_index] at h
  | cons c rest ih =>
    intro k pos acc h
    by_cases h2 : 2 ≤ c.status
    · rw [stop_index, if_pos h2] at h
      obtain rfl : (0 : ℕ) = k := Option.some.inj h
      simp only [scan_loop_aux, if_neg (not_lt.mpr h2)]
      simp [List.take, List.foldl]
    · rw [stop_index, if_neg h2] at h
      obtain ⟨k', hk', rfl⟩ := Option.map_eq_some'.mp h
      simp only [scan_loop_aux, if_pos (not_le.mp h2)]
      rw [ih k' 1 (merge_step decode acc c) hk', List.take_succ_cons, List.foldl_cons]

/-- Companion to `scan_loop_aux_snd_eq` for the instrumented trace: the
first call receives the initial `pos`, every later call receives `1`, and
every call receives `size` as the record length. -/
lemma scan_loop_aux_fst_eq {Rec K V : Type} [DecidableEq K]
    (decode : Rec → Option (K × V)) (size : ℤ) :
    ∀ (calls : List (ScanCall Rec)) (k : ℕ) (pos : ℤ) (acc : Dict K V),
      stop_index calls = some k →
      (scan_loop_aux decode size calls pos acc).1
        = (pos, size) :: List.replicate k (1, size) := by
  intro calls
  induction calls with
  | nil => intro k pos acc h; simp [stop_index] at h
  | cons c rest ih =>
    intro k pos acc h
    by_cases h2 : 2 ≤ c.status
    · rw [stop_index, if_pos h2] at h
      obtain rfl : (0 : ℕ) = k := Option.some.inj h
      simp only [scan_loop_aux, if_neg (not_lt.mpr h2)]
      simp
    · rw [stop_index, if_neg h2] at h
      obtain ⟨k', hk', rfl⟩ := Option.map_eq_some'.mp h
      simp only [scan_loop_aux, if_pos (not_le.mp h2)]
      rw [ih k' 1 (merge_step decode acc c) hk', List.replicate_succ]

/-! ## Claim C7: the single-key read loop protocol -/

/-- C7: in single-key mode every source family starts its `pos` counter at
`1` (the decorator default, or the explicitly passed `1`); whenever some
call answers with status `≥ 2` — first at index `k` — the loop performs
exactly the calls `0..k` (it continues exactly while the status returned is
strictly below `2`, so a record delivered with status `1` is still merged),
its result is the fold of the decode-and-merge step over those calls keyed
by each record's declared id, and before every call the position cursor
holds its initial value `1` and the length field holds the schema's fixed
`size`. -/
theorem single_key_scan_protocol {Rec K V : Type} [DecidableEq K]
    (decode : Rec → Option (K × V)) (size : ℤ) (calls : List (ScanCall Rec))
    (acc : Dict K V) (k : ℕ) (hk : stop_index calls = some k) :
    (∀ f ∈ sourceFamilies, f.minorKey.isSome → effectivePos f = 1)
    ∧ (scan_loop_aux decode size calls 1 acc).2
        = some ((calls.take (k + 1)).foldl (merge_step decode) acc)
    ∧ (scan_loop_aux decode size calls 1 acc).1 = List.replicate (k + 1) (1, size) := by
  refine ⟨by decide, scan_loop_aux_snd_eq decode size calls k 1 acc hk, ?_⟩
  rw [scan_loop_aux_fst_eq decode size calls k 1 acc hk, List.replicate_succ]

/-- Witness for C7 at a concrete three-call stream (statuses `0`, `1`, `2`):
the loop merges all three records — the status-`1` record included — and
passes `(1, size)` to the primitive on every call. -/
theorem single_key_scan_protocol_witness :
    (∀ f ∈ sourceFamilies, f.minorKey.isSome → effectivePos f = 1)
    ∧ (scan_loop_aux read_nodes 276
          [⟨0, ⟨1, (0, 0, 0), 0⟩⟩, ⟨1, ⟨2, (5, 0, 0), 0⟩⟩, ⟨2, ⟨3, (0, 7, 0), 0⟩⟩] 1 []).2
        = some (([⟨0, ⟨1, (0, 0, 0), 0⟩⟩, ⟨1, ⟨2, (5, 0, 0), 0⟩⟩,
            (⟨2, ⟨3, (0, 7, 0), 0⟩⟩ : ScanCall CNode)].take (2 + 1)).foldl
            (merge_step read_nodes) [])
    ∧ (scan_loop_aux read_nodes 276
          [⟨0, ⟨1, (0, 0, 0), 0⟩⟩, ⟨1, ⟨2, (5, 0, 0), 0⟩⟩, ⟨2, ⟨3, (0, 7, 0), 0⟩⟩] 1 []).1
        = List.replicate (2 + 1) (1, 276) :=
  single_key_scan_protocol read_nodes 276
    [⟨0, ⟨1, (0, 0, 0), 0⟩⟩, ⟨1, ⟨2, (5, 0, 0), 0⟩⟩, ⟨2, ⟨3, (0, 7, 0), 0⟩⟩] [] 2 (by rfl)

/-! ## Claim C8: a sentinel record is skipped without ending the scan -/

/-- C8: a call delivering a record with declared id `≤ 0` while the status
is still `< 2` contributes nothing to the result (the decoder returns "no
record", so the merge is skipped) and does not terminate the loop: the scan
result is the same as if that call were not in the stream at all, so the
following calls are still processed. -/
theorem sentinel_record_skipped_scan_continues (size : ℤ)
    (pre post : List (ScanCall CNode)) (c : ScanCall CNode) (acc : Dict ℤ NodeAttr)
    (hid : c.record.m_nr ≤ 0) (hst : c.status < 2) :
    read_nodes c.record = none
    ∧ (scan_loop_aux read_nodes size (pre ++ c :: post) 1 acc).2
        = (scan_loop_aux read_nodes size (pre ++ post) 1 acc).2 := by
  have hdec : read_nodes c.record = none := by rw [read_nodes, if_pos hid]
  refine ⟨hdec, ?_⟩
  induction pre generalizing acc with
  | nil =>
    simp only [List.nil_append, scan_loop_aux, if_pos hst, merge_step, hdec]
  | cons p pre ih =>
    by_cases hp : p.status < 2
    · simp only [List.cons_append, scan_loop_aux, if_pos hp]
      exact ih (merge_step read_nodes acc p)
    · simp only [List.cons_append, scan_loop_aux, if_neg hp]

/-- Witness for C8: with a sentinel (id `0`, status `0`) call between two
real node records, the decoded family is the same as without it. -/
theorem sentinel_record_skipped_scan_continues_witness :
    read_nodes (⟨0, (0, 0, 0), 0⟩ : CNode) = none
    ∧ (scan_loop_aux read_nodes 276
          ([⟨0, ⟨5, (1, 1, 1), 0⟩⟩] ++ (⟨0, ⟨0, (0, 0, 0), 0⟩⟩ : ScanCall CNode)
            :: [⟨2, ⟨7, (2, 2, 2), 0⟩⟩]) 1 []).2
        = (scan_loop_aux read_nodes 276
            ([⟨0, ⟨5, (1, 1, 1), 0⟩⟩] ++ [⟨2, ⟨7, (2, 2, 2), 0⟩⟩]) 1 []).2 :=
  sentinel_record_skipped_scan_continues 276 [⟨0, ⟨5, (1, 1, 1), 0⟩⟩]
    [⟨2, ⟨7, (2, 2, 2), 0⟩⟩] ⟨0, ⟨0, (0, 0, 0), 0⟩⟩ [] (by decide) (by decide)

/-! ## Claim C3: a family whose key state is not `2` -/

/-- Counterexample to C3 as stated: with `key_exists` answering `0` for the
nodes family, the scan does *not* produce an empty decoded family mapping
for that entity kind — it produces no mapping at all.  Starting from an
empty data store, the store is returned unchanged and a lookup of the
family identifier yields `none`, not an empty dictionary. -/
theorem absent_family_not_stored_as_empty :
    ¬ (∃ d, single_record "nodes" 0 read_nodes 276 1 [] [] = some d
          ∧ dfind? d "nodes" = some ([] : Dict ℤ NodeAttr)) := by
  rintro ⟨d, hd, hfind⟩
  have hd0 : d = [] := by
    have : (some [] : Option (Dict String (Dict ℤ NodeAttr))) = some d := by
      rw [← hd]; rfl
    exact (Option.some.inj this).symm
  rw [hd0] at hfind
  simp [dfind?] at hfind

/-- C3 amended: if `key_exists` reports a state other than `2` for a family
queried in single-key mode, the scan raises no error and leaves the data
store unchanged — no entry (empty or otherwise) is stored for that entity
kind, and the scan of the remaining families proceeds from the unchanged
store. -/
theorem absent_family_leaves_data_unchanged {Rec K V : Type} [DecidableEq K]
    (ident : String) (keyState : ℤ) (decode : Rec → Option (K × V))
    (size initPos : ℤ) (calls : List (ScanCall Rec))
    (data : Dict String (Dict K V)) (h : keyState ≠ 2) :
    single_record ident keyState decode size initPos calls data = some data := by
  rw [single_record, if_neg]
  simp [validate_cdb_keys, h]

/-- Witness for the amended C3 at key state `0` (family absent). -/
theorem absent_family_leaves_data_unchanged_witness :
    single_record "nodes" 0 read_nodes 276 1 []
        [("beams", [((21 : ℤ), (⟨[1, 2, 3], " "⟩ : NodeAttr))])]
      = some [("beams", [((21 : ℤ), (⟨[1, 2, 3], " "⟩ : NodeAttr))])] :=
  absent_family_leaves_data_unchanged "nodes" 0 read_nodes 276 1 []
    [("beams", [((21 : ℤ), (⟨[1, 2, 3], " "⟩ : NodeAttr))])] (by decide)

/-! ## Claim C4: Bric volume multiplier by topology -/

/-- C4: for a Bric record with declared id `> 0` (and a group computation
that succeeds), the decoded volume is `m_det[0] * (4/3)` when the last two
node slots coincide (tetrahedral topology) and `m_det[0] * 8` otherwise
(hexahedral topology). -/
theorem bric_volume_topology (systemData : Option (Dict String ℤ)) (r : CBric)
    (g : ℤ) (h : 0 < r.m_nr) (hg : get_group systemData r.m_nr = .ok g) :
    (r.m_node 7 = r.m_node 6 →
      read_brics systemData r = .ok (some (r.m_nr,
        ⟨g, List.ofFn r.m_node, r.m_nra, r.m_mat, r.m_det 0 * (4 / 3)⟩)))
    ∧ (r.m_node 7 ≠ r.m_node 6 →
      read_brics systemData r = .ok (some (r.m_nr,
        ⟨g, List.ofFn r.m_node, r.m_nra, r.m_mat, r.m_det 0 * 8⟩))) := by
  constructor
  · intro he
    simp only [read_brics, if_neg (not_le.mpr h), if_pos he, hg]
  · intro he
    simp only [read_brics, if_neg (not_le.mpr h), if_neg he, hg]

/-- Witness for C4: a degenerate Bric (slots 7 and 8 both node `7`) uses the
`4/3` multiplier, a regular one uses `8`. -/
theorem bric_volume_topology_witness :
    read_brics none ⟨9, ![1, 2, 3, 4, 5, 6, 7, 7], 0, 1, fun _ => 3⟩
      = .ok (some (9, ⟨0, List.ofFn ![1, 2, 3, 4, 5, 6, 7, 7], 0, 1, 3 * (4 / 3)⟩))
    ∧ read_brics none ⟨9, ![1, 2, 3, 4, 5, 6, 7, 8], 0, 1, fun _ => 3⟩
      = .ok (some (9, ⟨0, List.ofFn ![1, 2, 3, 4, 5, 6, 7, 8], 0, 1, 3 * 8⟩)) :=
  ⟨(bric_volume_topology none ⟨9, ![1, 2, 3, 4, 5, 6, 7, 7], 0, 1, fun _ => 3⟩ 0
      (by decide) (by rfl)).1 (by decide),
   (bric_volume_topology none ⟨9, ![1, 2, 3, 4, 5, 6, 7, 8], 0, 1, fun _ => 3⟩ 0
      (by decide) (by rfl)).2 (by decide)⟩

/-! ## Claim C5: the derived group index -/

/-- Counterexample to C5 as stated: the code computes `int(id / gdiv)`,
truncation toward zero, not `floor(id / gdiv)`.  With element id `21` and a
stored divisor `-10` the code yields `-2` while the floor is `-3`. -/
theorem group_index_not_floor_for_negative_divisor :
    get_group (some [("gdiv", -10)]) 21 = .ok (-2)
    ∧ Int.fdiv 21 (-10) = -3
    ∧ get_group (some [("gdiv", -10)]) 21 ≠ .ok (Int.fdiv 21 (-10)) := by
  refine ⟨by decide, by decide, ?_⟩
  intro hcontra
  have h1 : get_group (some [("gdiv", -10)]) 21 = .ok (-2) := by decide
  rw [h1] at hcontra
  simp at hcontra

/-- C5 amended: the derived group index is the truncation toward zero of
`id / gdiv`; for a positive declared id and a *positive* stored divisor this
coincides with `floor(id / gdiv)` (the two differ for a negative divisor).
It is `0` when no System record was read, `floor(21 / 10) = 2` in the spec's
scenario, and the Beam decoder stores exactly this group index. -/
theorem group_index_truncated_division (id gdiv : ℤ) (hid : 0 < id)
    (hgdiv : 0 < gdiv) :
    get_group (some [("gdiv", gdiv)]) id = .ok (Int.tdiv id gdiv)
    ∧ Int.tdiv id gdiv = Int.fdiv id gdiv
    ∧ (∀ n : ℤ, get_group none n = .ok 0)
    ∧ get_group (some [("gdiv", 10)]) 21 = .ok 2
    ∧ (∀ (sysd : Option (Dict String ℤ)) (r : CBeam) (g : ℤ),
        0 < r.m_nr → get_group sysd r.m_nr = .ok g →
        read_beams sysd r = .ok (some (r.m_nr,
          ⟨g, [r.m_node.1, r.m_node.2], r.m_dl,
            r.m_ex.map Prod.fst, r.m_ex.map Prod.snd⟩))) := by
  refine ⟨?_, ?_, fun n => rfl, by decide, ?_⟩
  · simp [get_group, dfind?, List.find?, hgdiv.ne']
  · obtain ⟨m, rfl⟩ := Int.eq_ofNat_of_zero_le hid.le
    obtain ⟨n, rfl⟩ := Int.eq_ofNat_of_zero_le hgdiv.le
    rw [← Int.ofNat_tdiv, Int.ofNat_fdiv]
  · intro sysd r g hr hg
    simp only [read_beams, if_neg (not_le.mpr hr), hg]

/-- Witness for the amended C5 at the spec's scenario: system divisor `10`,
Beam id `21`, group index `2`. -/
theorem group_index_truncated_division_witness :
    get_group (some [("gdiv", 10)]) 21 = .ok (Int.tdiv 21 10)
    ∧ read_beams (some [("gdiv", 10)]) ⟨21, (1, 1), 0, []⟩
      = .ok (some (21, ⟨2, [1, 1], 0, [], []⟩)) :=
  ⟨(group_index_truncated_division 21 10 (by decide) (by decide)).1,
   (group_index_truncated_division 21 10 (by decide) (by decide)).2.2.2.2
      (some [("gdiv", 10)]) ⟨21, (1, 1), 0, []⟩ 2 (by decide) (by decide)⟩

/-! ## Claim C10: a zero group divisor is unguarded -/

/-- C10: `read_system` stores the raw divisor unconditionally; with a
System record whose stored divisor is `0`, `_get_group` performs the
unguarded division and raises `ZeroDivisionError`, and an element decode
(here a Beam with positive id) propagates that exception; only the complete
absence of the System record is handled, by returning group `0`. -/
theorem zero_group_divisor_raises :
    (∀ r : CSyst, read_system r = some ("gdiv", r.m_igdiv))
    ∧ (∀ id : ℤ, get_group (some [("gdiv", 0)]) id = .error .zeroDivisionError)
    ∧ (∀ r : CBeam, 0 < r.m_nr →
        read_beams (some [("gdiv", 0)]) r = .error .zeroDivisionError)
    ∧ (∀ id : ℤ, get_group none id = .ok 0) := by
  refine ⟨fun r => rfl, fun id => by simp [get_group, dfind?, List.find?], ?_, fun id => rfl⟩
  intro r hr
  simp only [read_beams, if_neg (not_le.mpr hr)]
  simp [get_group, dfind?, List.find?]

/-- Witness for C10 at Beam id `21` with stored divisor `0`. -/
theorem zero_group_divisor_raises_witness :
    read_beams (some [("gdiv", 0)]) ⟨21, (1, 1), 0, []⟩
      = .error .zeroDivisionError :=
  zero_group_divisor_raises.2.2.1 ⟨21, (1, 1), 0, []⟩ (by decide)

/-! ## Claim C2: the decoded `sigz` comes from the record's σy field -/

/-- C2 (code defect, evaluated at a failing input): decoding the Bric
stress record `{id 7, σx 10, σy 20, σz 30, τxy 40, τxz 50, τyz 60}` yields
`sigz = 20 * 0.001 = 0.02`, duplicating `sigy` — not `30 * 0.001 = 0.03` as
the claim (decoding σz from its own field) requires; the other five entries
do come from their own fields. -/
theorem bric_stress_sigz_from_sigy :
    read_bric_stresses ⟨7, 10, 20, 30, 40, 50, 60⟩
      = some (7, ⟨1/100, 1/50, 1/50, 1/25, 1/20, 3/50⟩)
    ∧ (30 : ℚ) * (1/1000) = 3/100
    ∧ (read_bric_stresses ⟨7, 10, 20, 30, 40, 50, 60⟩).map (fun p => p.2.sigz)
        ≠ some (3/100) := by
  refine ⟨?_, by norm_num, ?_⟩
  · norm_num [read_bric_stresses, BricStressAttr.mk.injEq]
  · norm_num [read_bric_stresses]

/-! ## Claim C6: fixity decoding is a greedy bit-unpacking -/

/-- Shared helper: the fold in `_decode_node_fix` computes the spec's greedy
walk of the flag table (subtract each flag's bit value that still fits,
apply its substitution). -/
lemma decode_fold_eq_spec (l : List (ℤ × String × String)) :
    ∀ (b : ℤ) (acc : String),
      (l.foldl (fun st fix =>
          let temp := st.1 - fix.1
          if 0 ≤ temp then (temp, py_replace st.2 fix.2.1 fix.2.2) else st) (b, acc)).2
        = decode_fix_spec l b acc := by
  induction l with
  | nil => intro b acc; rfl
  | cons f rest ih =>
    intro b acc
    obtain ⟨bit, tokR, tokA⟩ := f
    by_cases hb : bit ≤ b
    · rw [List.foldl_cons, decode_fix_spec, if_pos hb]
      simp only [if_pos (sub_nonneg.mpr hb)]
      exact ih (b - bit) (py_replace acc tokR tokA)
    · rw [List.foldl_cons, decode_fix_spec, if_neg hb]
      have : ¬ (0 : ℤ) ≤ b - bit := fun hc => hb (sub_nonneg.mp hc)
      simp only [if_neg this]
      exact ih b acc

/-- C6: the flag table descends from `1024` to `1`; for every bitcode the
decoder equals the greedy bit-unpacking described by the spec (accumulator
starts at a single space, each flag whose bit value fits into the remaining
bitcode is subtracted and its textual substitution applied, the final
accumulator is returned); and the decoder is not a generic bitmask test —
at bitcode `2112` the two disagree. -/
theorem node_fix_greedy_unpacking :
    (fix_flags.map Prod.fst = [1024, 512, 256, 128, 64, 32, 16, 8, 4, 2, 1]
      ∧ List.Chain' (fun a b => b < a) (fix_flags.map Prod.fst))
    ∧ (∀ bitcode : ℤ, decode_node_fix bitcode = decode_fix_spec fix_flags bitcode " ")
    ∧ decode_node_fix 2112 ≠ decode_fix_bitmask 2112 := by
  refine ⟨⟨by rfl, by simp [fix_flags, List.chain'_cons]⟩, ?_, by decide⟩
  intro bitcode
  exact decode_fold_eq_spec fix_flags bitcode " "

/-! ## Principal-stress numerics (`misc.py`)

Floating-point arithmetic is idealised as exact real arithmetic; `math.sqrt`
raising `ValueError` on a negative argument becomes an explicit error
result, and `None` flowing from a non-convergent `solve_newton` into the
arithmetic of `get_principal_stresses` (Python would raise `TypeError` at
`p1 - A`) becomes an explicit `typeError` result. -/

/-- Python `max((a, b, c))`. -/
noncomputable def max3 (a b c : ℝ) : ℝ := max (max a b) c

/-- Function `solve_newton` of `misc.py`: at most `max_iter` (the final
argument) iterations; stop with the current iterate as soon as
`abs(f(xn)) < epsilon`; on a zero derivative perturb the iterate by `1e-3`
(consuming an iteration); otherwise take the Newton step; return `None`
when the budget is exhausted. -/
noncomputable def solve_newton (f df : ℝ → ℝ) (eps : ℝ) : ℝ → ℕ → Option ℝ
  | _, 0 => none
  | xn, n + 1 =>
    if |f xn| < eps then some xn
    else if df xn = 0 then solve_newton f df eps (xn + 1/1000) n
    else solve_newton f df eps (xn - f xn / df xn) n

/-- Function `solve_poly_deg2` of `misc.py`: `math.sqrt` raises
`ValueError` on a negative discriminant, otherwise the two quadratic-formula
roots are returned. -/
noncomputable def solve_poly_deg2 (a b c : ℝ) : Except PyErr (ℝ × ℝ) :=
  if b ^ 2 - 4 * a * c < 0 then .error .valueError
  else .ok ((-b + Real.sqrt (b ^ 2 - 4 * a * c)) / (2 * a),
            (-b - Real.sqrt (b ^ 2 - 4 * a * c)) / (2 * a))

/-- Python `sorted([a, b, c], reverse=True)`, returned as a triple. -/
noncomputable def sort3_desc (a b c : ℝ) : ℝ × ℝ × ℝ :=
  if b ≤ a then
    if c ≤ b then (a, b, c)
    else if c ≤ a then (a, c, b)
    else (c, a, b)
  else
    if c ≤ a then (b, a, c)
    else if c ≤ b then (b, c, a)
    else (c, b, a)

/-- Function `get_principal_stresses` of `misc.py`: stress invariants,
one cubic root by Newton from initial guess `max(σx, σy, σz)` with
tolerance `1e-5` and `100` iterations, quadratic deflation, descending
sort.  A `none` from `solve_newton` makes Python evaluate `None - A`,
raising `TypeError` — modelled as the `typeError` result. -/
noncomputable def get_principal_stresses (σx σy σz τxy τxz τyz : ℝ) :
    Except PyErr (ℝ × ℝ × ℝ) :=
  let A := σx + σy + σz
  let B := σx*σy + σx*σz + σy*σz - τxy^2 - τxz^2 - τyz^2
  let C := σx*σy*σz + 2*τxy*τxz*τyz - σx*τyz^2 - σy*τxz^2 - σz*τxy^2
  match solve_newton (fun p => p^3 - A*p^2 + B*p - C)
      (fun p => 3*p^2 - 2*A*p + B) (1/100000) (max3 σx σy σz) 100 with
  | none => .error .typeError
  | some p1 =>
    match solve_poly_deg2 1 (p1 - A) (p1^2 - p1*A + B) with
    | .error e => .error e
    | .ok (p2, p3) => .ok (sort3_desc p1 p2 p3)

/-- Unfolding lemma for one iteration of `solve_newton` at positive fuel. -/
lemma solve_newton_pos_fuel (f df : ℝ → ℝ) (eps xn : ℝ) (n : ℕ) (hn : n ≠ 0) :
    solve_newton f df eps xn n
      = if |f xn| < eps then some xn
        else if df xn = 0 then solve_newton f df eps (xn + 1/1000) (n - 1)
        else solve_newton f df eps (xn - f xn / df xn) (n - 1) := by
  cases n with
  | zero => exact absurd rfl hn
  | succ m => rfl

/-- Ordering and permutation specification of `sort3_desc`. -/
lemma sort3_desc_spec (a b c : ℝ) :
    (sort3_desc a b c).2.1 ≤ (sort3_desc a b c).1
    ∧ (sort3_desc a b c).2.2 ≤ (sort3_desc a b c).2.1
    ∧ [(sort3_desc a b c).1, (sort3_desc a b c).2.1,
        (sort3_desc a b c).2.2].Perm [a, b, c] := by
  unfold sort3_desc
  split_ifs with h1 h2 h3 h4 h5
  · exact ⟨h1, h2, List.Perm.refl _⟩
  · exact ⟨h3, (not_le.mp h2).le, List.Perm.cons a (List.Perm.swap b c [])⟩
  · exact ⟨(not_le.mp h3).le, h1,
      List.Perm.trans (List.Perm.swap a c [b]) (List.Perm.cons a (List.Perm.swap b c []))⟩
  · exact ⟨(not_le.mp h1).le, h4, List.Perm.swap a b [c]⟩
  · exact ⟨h5, (not_le.mp h4).le,
      List.Perm.trans (List.Perm.cons b (List.Perm.swap a c [])) (List.Perm.swap a b [c])⟩
  · exact ⟨(not_le.mp h5).le, (not_le.mp h1).le,
      List.Perm.trans (List.Perm.swap b c [a])
        (List.Perm.trans (List.Perm.cons b (List.Perm.swap a c [])) (List.Perm.swap a b [c]))⟩

/-! ## Claim C9: isotropic tensors and descending output order -/

/-- C9: on an isotropic tensor (`σx = σy = σz = s`, zero shear) the solver
returns `(s, s, s)`; `sort3_desc` sorts its three arguments into descending
order (a permutation of the inputs); and whenever the solver succeeds its
three outputs are in descending order, being the roots sorted descending. -/
theorem principal_stresses_isotropic_and_sorted :
    (∀ s : ℝ, get_principal_stresses s s s 0 0 0 = .ok (s, s, s))
    ∧ (∀ a b c : ℝ,
        (sort3_desc a b c).2.1 ≤ (sort3_desc a b c).1
        ∧ (sort3_desc a b c).2.2 ≤ (sort3_desc a b c).2.1
        ∧ [(sort3_desc a b c).1, (sort3_desc a b c).2.1,
            (sort3_desc a b c).2.2].Perm [a, b, c])
    ∧ (∀ σx σy σz τxy τxz τyz x y z : ℝ,
        get_principal_stresses σx σy σz τxy τxz τyz = .ok (x, y, z) →
        y ≤ x ∧ z ≤ y) := by
  refine ⟨?_, sort3_desc_spec, ?_⟩
  · intro s
    rw [get_principal_stresses]
    simp only [max3, max_self]
    rw [solve_newton_pos_fuel _ _ _ _ _ (by norm_num)]
    ring_nf
    rw [if_pos (by norm_num : |(0:ℝ)| < 1/100000)]
    dsimp only
    rw [solve_poly_deg2]
    ring_nf
    rw [if_neg (by norm_num : ¬ (0:ℝ) < 0)]
    dsimp only
    norm_num [Real.sqrt_zero, sort3_desc]
  · intro σx σy σz τxy τxz τyz x y z h
    rw [get_principal_stresses] at h
    split at h
    · exact absurd h (by simp)
    · next p1 heq =>
      split at h
      · exact absurd h (by simp)
      · next p2 p3 heq2 =>
        have h' : sort3_desc p1 p2 p3 = (x, y, z) := by injection h
        have hs := sort3_desc_spec p1 p2 p3
        rw [h'] at hs
        exact ⟨hs.1, hs.2.1⟩

/-- Witness for C9: the isotropic tensor with `s = 1` converges (Newton
accepts the initial guess immediately), and the outputs are in descending
order. -/
theorem principal_stresses_isotropic_and_sorted_witness :
    get_principal_stresses 1 1 1 0 0 0 = .ok (1, 1, 1)
    ∧ ((1:ℝ) ≤ 1 ∧ (1:ℝ) ≤ 1) :=
  ⟨principal_stresses_isotropic_and_sorted.1 1,
   principal_stresses_isotropic_and_sorted.2.2 1 1 1 0 0 0 1 1 1
     (principal_stresses_isotropic_and_sorted.1 1)⟩

/-! ## Claim C1: a non-convergent Newton iteration crashes the solver

The rank-one tensor with every component equal to `-(10^40)/3` has the
double eigenvalue `0` and the simple eigenvalue `-(10^40)`: its
characteristic invariants are `A = -(10^40)`, `B = C = 0`, so the cubic is
`p^3 - A p^2` and Newton starts at the diagonal maximum `A/3`.  Toward the
double root the iterates only roughly halve each step (writing the iterate
as `A*t`, the step maps `t` to `t*(1-2t)/(2-3t) ∈ [t/3, t/2]`), so after
`100` iterations `t ≥ (1/3)^102` and `|f| = 10^120 * t^2 * (1-t)` is still
astronomically larger than the `1e-5` tolerance: the budget runs out. -/

/-- Every component of the non-convergent stress tensor used for claim C1. -/
noncomputable def stall_input : ℝ := -(10:ℝ)^40 / 3

/-- On the cubic `p^3 + 10^40 * p^2`, started at `-(10^40) * t` with
`(1/3)^(102-k) ≤ t ≤ 1/3`, `solve_newton` exhausts any budget of
`k ≤ 100` iterations and returns `none`: the tolerance check fails and the
derivative is nonzero at every iterate, and each Newton step keeps the
iterate in the stated range. -/
lemma newton_stall (f df : ℝ → ℝ)
    (hf : ∀ p : ℝ, f p = p^3 - (-(10:ℝ)^40) * p^2)
    (hdf : ∀ p : ℝ, df p = 3*p^2 - 2*(-(10:ℝ)^40)*p) :
    ∀ (k : ℕ), k ≤ 100 → ∀ t : ℝ, ((1:ℝ)/3)^(102-k) ≤ t → t ≤ 1/3 →
      solve_newton f df (1/100000) ((-(10:ℝ)^40)*t) k = none := by
  intro k
  induction k with
  | zero => intro _ t _ _; rfl
  | succ k ih =>
    intro hk t hlb hub
    have he0 : 102 - (k+1) = 101 - k := by omega
    rw [he0] at hlb
    have ht0 : (0:ℝ) < t := lt_of_lt_of_le (by positivity) hlb
    have hlow : ((1:ℝ)/3)^101 ≤ t :=
      le_trans (pow_le_pow_of_le_one (by norm_num) (by norm_num) (by omega)) hlb
    have hfv : f ((-(10:ℝ)^40)*t) = (10:ℝ)^120 * (t^2*(1-t)) := by rw [hf]; ring
    have habs : ¬ |f ((-(10:ℝ)^40)*t)| < 1/100000 := by
      rw [not_lt, hfv, abs_of_nonneg (by nlinarith)]
      have h2 : ((1:ℝ)/3)^202 ≤ t^2 := by
        have hp := pow_le_pow_left₀ (by positivity : (0:ℝ) ≤ (1/3)^101) hlow 2
        calc ((1:ℝ)/3)^202 = (((1:ℝ)/3)^101)^2 := by rw [← pow_mul]
          _ ≤ t^2 := hp
      have h3 : (2:ℝ)/3 ≤ 1 - t := by linarith
      have h4 : ((1:ℝ)/3)^202 * (2/3) ≤ t^2 * (1-t) :=
        mul_le_mul h2 h3 (by norm_num) (by positivity)
      have h5 : (1:ℝ)/100000 ≤ (10:ℝ)^120 * (((1:ℝ)/3)^202 * (2/3)) := by norm_num
      exact le_trans h5 (mul_le_mul_of_nonneg_left h4 (by positivity))
    have hdfv : df ((-(10:ℝ)^40)*t) = (10:ℝ)^80 * (t * (3*t - 2)) := by rw [hdf]; ring
    have hneg : (10:ℝ)^80 * (t * (3*t - 2)) < 0 :=
      mul_neg_of_pos_of_neg (by positivity) (mul_neg_of_pos_of_neg ht0 (by linarith))
    have hdfne : df ((-(10:ℝ)^40)*t) ≠ 0 := by rw [hdfv]; exact hneg.ne
    have hpos2 : (0:ℝ) < 2 - 3*t := by linarith
    have hstep : (-(10:ℝ)^40)*t - f ((-(10:ℝ)^40)*t) / df ((-(10:ℝ)^40)*t)
        = (-(10:ℝ)^40) * (t * (1 - 2*t) / (2 - 3*t)) := by
      rw [hfv, hdfv]
      have hne2 : (10:ℝ)^80 * (t * (3*t - 2)) ≠ 0 := hneg.ne
      field_simp
      ring
    have ht_ge : t/3 ≤ t * (1 - 2*t) / (2 - 3*t) := by
      rw [le_div_iff₀ hpos2]
      nlinarith [mul_nonneg ht0.le (by linarith : (0:ℝ) ≤ 1 - 3*t)]
    have ht_le : t * (1 - 2*t) / (2 - 3*t) ≤ t/2 := by
      rw [div_le_iff₀ hpos2]
      nlinarith [sq_nonneg t]
    have hub2 : t * (1 - 2*t) / (2 - 3*t) ≤ 1/3 := le_trans ht_le (by linarith)
    have hlb2 : ((1:ℝ)/3)^(102-k) ≤ t * (1 - 2*t) / (2 - 3*t) := by
      have he : 102 - k = (101 - k) + 1 := by omega
      rw [he, pow_succ]
      calc ((1:ℝ)/3)^(101-k) * (1/3) ≤ t * (1/3) :=
            mul_le_mul_of_nonneg_right hlb (by norm_num)
        _ = t/3 := by ring
        _ ≤ _ := ht_ge
    rw [solve_newton_pos_fuel _ _ _ _ _ (Nat.succ_ne_zero k)]
    rw [if_neg habs, if_neg hdfne]
    rw [hstep]
    exact ih (by omega) (t * (1 - 2*t) / (2 - 3*t)) hlb2 hub2

/-- C1 (evaluated at the failing input): on the symmetric tensor whose six
components all equal `stall_input = -(10^40)/3`, Newton does not reach
`|f(p)| < 1e-5` within its `100`-iteration budget — `solve_newton` yields
`none` — and `get_principal_stresses` then *crashes* with a `TypeError`
(Python evaluates `None - A`) instead of propagating a failed computation:
the error result of the model marks the uncaught exception that aborts the
caller's scan. -/
theorem nonconvergent_newton_crashes_solver :
    solve_newton
      (fun p => p^3 - (stall_input + stall_input + stall_input)*p^2
        + (stall_input*stall_input + stall_input*stall_input + stall_input*stall_input
            - stall_input^2 - stall_input^2 - stall_input^2)*p
        - (stall_input*stall_input*stall_input + 2*stall_input*stall_input*stall_input
            - stall_input*stall_input^2 - stall_input*stall_input^2 - stall_input*stall_input^2))
      (fun p => 3*p^2 - 2*(stall_input + stall_input + stall_input)*p
        + (stall_input*stall_input + stall_input*stall_input + stall_input*stall_input
            - stall_input^2 - stall_input^2 - stall_input^2))
      (1/100000) (max3 stall_input stall_input stall_input) 100 = none
    ∧ get_principal_stresses stall_input stall_input stall_input
        stall_input stall_input stall_input = .error .typeError := by
  have hf : ∀ p : ℝ,
      p^3 - (stall_input + stall_input + stall_input)*p^2
        + (stall_input*stall_input + stall_input*stall_input + stall_input*stall_input
            - stall_input^2 - stall_input^2 - stall_input^2)*p
        - (stall_input*stall_input*stall_input + 2*stall_input*stall_input*stall_input
            - stall_input*stall_input^2 - stall_input*stall_input^2 - stall_input*stall_input^2)
      = p^3 - (-(10:ℝ)^40) * p^2 := by
    intro p; rw [stall_input]; ring
  have hdf : ∀ p : ℝ,
      3*p^2 - 2*(stall_input + stall_input + stall_input)*p
        + (stall_input*stall_input + stall_input*stall_input + stall_input*stall_input
            - stall_input^2 - stall_input^2 - stall_input^2)
      = 3*p^2 - 2*(-(10:ℝ)^40)*p := by
    intro p; rw [stall_input]; ring
  have hm : max3 stall_input stall_input stall_input = (-(10:ℝ)^40) * (1/3) := by
    simp only [max3, max_self]
    rw [stall_input]; ring
  have h1 := newton_stall _ _ hf hdf 100 le_rfl (1/3) (by norm_num) (by norm_num)
  constructor
  · rw [hm]; exact h1
  · rw [get_principal_stresses, hm, h1]
